import Mathlib

/-!
Verification development for the distro-dumper repository.

The Python sources under src/ are shallowly embedded as executable Lean
definitions: strings are Lean strings (sequences of unicode codepoints, as in
Python), Python dicts preserving insertion order are association lists with
last-write-wins insertion, the filesystem contents of the cache and dump
directories are lists of filenames used as sets, fallible operations return
Except or Option, and the regular expressions used by the modules are embedded
as concatenation patterns run by a small greedy backtracking matcher that
mirrors Python re semantics (leftmost match, greedy quantifiers with
backtracking).
-/

/-! ## A tiny regex engine for the concatenation-only patterns of the modules

Each pattern used in the sources (arch.py, debian.py) is a plain concatenation
of literals, fixed repetitions, greedy stars or pluses of a character class,
and an optional trailing character.  The matcher below implements Python
semantics for these: quantifiers are greedy and backtrack (longest split is
tried first, the first overall success wins), `re.search` tries start
positions left to right.
-/

inductive RPiece where
  /-- A literal string in the pattern. -/
  | lit : List Char → RPiece
  /-- A captured group of exactly `n` characters of a class, like `(\d{4})`. -/
  | grpRep : Nat → (Char → Bool) → RPiece
  /-- A captured greedy star of a class, like `([a-zA-Z]*)`. -/
  | grpStar : (Char → Bool) → RPiece
  /-- A captured greedy plus of a class, like `(\d+)`. -/
  | grpPlus : (Char → Bool) → RPiece
  /-- A non-captured greedy star of a class, like `-*` or `.*`. -/
  | skipStar : (Char → Bool) → RPiece
  /-- An optional single literal character, like the final `t?`. -/
  | optChar : Char → RPiece

/-- Consume a literal from the front of the input, or fail. -/
def dropLit : List Char → List Char → Option (List Char)
  | [], s => some s
  | _ :: _, [] => none
  | c :: cs, x :: xs => if x = c then dropLit cs xs else none

/-- Match a concatenation of pieces at the start of the input, returning the
captured groups (outermost first) of the first match in Python's greedy
backtracking order.  The rest of the input after the match is ignored, as with
an unanchored pattern end. -/
def matchPieces : List RPiece → List Char → Option (List (List Char))
  | [], _ => some []
  | .lit t :: ps, s => (dropLit t s).bind (fun rest => matchPieces ps rest)
  | .grpRep n cl :: ps, s =>
      let taken := s.take n
      if taken.length = n && taken.all cl then
        (matchPieces ps (s.drop n)).map (fun caps => taken :: caps)
      else none
  | .grpStar cl :: ps, s =>
      let maxk := (s.takeWhile cl).length
      ((List.range (maxk + 1)).reverse).findSome? (fun k =>
        (matchPieces ps (s.drop k)).map (fun caps => s.take k :: caps))
  | .grpPlus cl :: ps, s =>
      let maxk := (s.takeWhile cl).length
      (((List.range (maxk + 1)).reverse).filter (fun k => decide (0 < k))).findSome? (fun k =>
        (matchPieces ps (s.drop k)).map (fun caps => s.take k :: caps))
  | .skipStar cl :: ps, s =>
      let maxk := (s.takeWhile cl).length
      ((List.range (maxk + 1)).reverse).findSome? (fun k => matchPieces ps (s.drop k))
  | .optChar c :: ps, s =>
      match s with
      | [] => matchPieces ps []
      | x :: xs =>
          if x = c then
            match matchPieces ps xs with
            | some r => some r
            | none => matchPieces ps s
          else matchPieces ps s

/-- `re.search` for a concatenation pattern: try each start position from the
left, returning the captures of the leftmost match. -/
def searchPieces (ps : List RPiece) : List Char → Option (List (List Char))
  | [] => matchPieces ps []
  | x :: xs =>
      match matchPieces ps (x :: xs) with
      | some r => some r
      | none => searchPieces ps xs

/-! ## Python dict and list helpers -/

/-- Python dict assignment `d[k] = v` on an insertion-ordered dict: an existing
key keeps its position and gets the new value, a new key is appended. -/
def dictInsert (d : List (String × String)) (k v : String) : List (String × String) :=
  if d.any (fun p => p.1 == k) then
    d.map (fun p => if p.1 == k then (k, v) else p)
  else d ++ [(k, v)]

/-- Python `dict.update(other)`: insert every pair of `other` in order. -/
def dictUpdate (d other : List (String × String)) : List (String × String) :=
  other.foldl (fun acc p => dictInsert acc p.1 p.2) d

/-- Python string comparison: lexicographic by code point. -/
def pyStrLtChars : List Char → List Char → Bool
  | [], [] => false
  | [], _ :: _ => true
  | _ :: _, [] => false
  | a :: as, b :: bs =>
      if a.val < b.val then true
      else if b.val < a.val then false
      else pyStrLtChars as bs

/-- Python `<` on strings. -/
def pyStrLt (a b : String) : Bool := pyStrLtChars a.data b.data

/-- Stable insertion into a descending-sorted list, placing the new element
after elements it compares equal to (Python `list.sort(reverse=True)` is
stable). -/
def insertDesc (x : String) : List String → List String
  | [] => [x]
  | y :: ys => if pyStrLt y x then x :: y :: ys else y :: insertDesc x ys

/-- `keys.sort(reverse=True)` from arch.py, embedded as a stable insertion
sort by descending code-point order (the keys are distinct dict keys, so any
correct descending sort agrees with CPython's Timsort here). -/
def pySortDesc (l : List String) : List String :=
  l.foldl (fun acc x => insertDesc x acc) []

/-! ## validation.py and the validators local to config_helper.py -/

/-- Python `str.split` with a one-character separator: splitting the empty
string gives one empty field, a separator at either end gives an empty
field there. -/
def pySplitChars (sep : Char) : List Char → List (List Char)
  | [] => [[]]
  | c :: rest =>
      let r := pySplitChars sep rest
      if c = sep then [] :: r
      else
        match r with
        | [] => [[c]]
        | g :: gs => (c :: g) :: gs

/-- `val.split(",")`. -/
def pySplitComma (s : String) : List String := (pySplitChars ',' s.data).map String.mk

/-- The whitespace characters Python `str.strip` removes (tab, newline,
vertical tab, form feed, carriage return, space). -/
def pyIsSpace (c : Char) : Bool := (c.toNat ∈ ([9, 10, 11, 12, 13, 32] : List Nat) : Bool)

/-- `str.strip`: drop whitespace from both ends. -/
def pyStrip (s : String) : String :=
  ⟨((s.data.dropWhile pyIsSpace).reverse.dropWhile pyIsSpace).reverse⟩

/-- `str.lower` on the ASCII letters (the configuration values at issue are
ASCII; Python also lowercases other cased letters). -/
def pyLower (s : String) : String :=
  ⟨s.data.map (fun c => if ('A' ≤ c && c ≤ 'Z' : Bool) then Char.ofNat (c.toNat + 32) else c)⟩

/-- The character property behind Python `str.isdigit`: true for the decimal
digits and also for some digit characters that are not decimal digits — the
superscripts one, two and three (U+00B9, U+00B2, U+00B3) stand in for that
non-decimal fragment here.  `int()` rejects exactly those non-decimal
digits. -/
def pyCharIsDigit (c : Char) : Bool :=
  c.isDigit || c.toNat = 0xB9 || c.toNat = 0xB2 || c.toNat = 0xB3

/-- Python `str.isdigit`: non-empty and every character a digit character. -/
def pyStrIsDigit (s : String) : Bool :=
  decide (0 < s.data.length) && s.data.all pyCharIsDigit

/-- Python `int(s)` for the values at issue: succeeds exactly on non-empty
strings of decimal digits (signs, surrounding whitespace and non-ASCII
decimal digits do not occur here) and raises ValueError otherwise — in
particular on the non-decimal digit characters that `str.isdigit`
accepts. -/
def pyInt? (s : String) : Option Nat :=
  if decide (0 < s.data.length) && s.data.all Char.isDigit then
    some (s.data.foldl (fun acc c => acc * 10 + (c.toNat - 48)) 0)
  else none

/-- An exception raised by validation code. -/
inductive PyExc where
  | valueError : PyExc
deriving DecidableEq

/-- A configuration validator: called on the present value of its variable,
it returns a verdict or raises. -/
abbrev Validator := String → Except PyExc Bool

/-- Wrap an exception-free check as a validator. -/
def vOk (f : String → Bool) : Validator := fun v => .ok (f v)

/-- validation.is_atomic_csv: a comma separated list whose stripped elements
all lie in `atoms`, with at least one element.  (`isinstance(val, str)` holds
for every environment value.) -/
def is_atomic_csv (val : String) (atoms : List String) : Bool :=
  let values := (pySplitComma val).map pyStrip
  decide (0 < values.length) && values.all (fun v => atoms.contains v)

/-- validation.is_bool_string: case-insensitively `true` or `false`. -/
def is_bool_string (val : String) : Bool :=
  (["true", "false"] : List String).contains (pyLower val)

/-- config_helper.__is_nonempty_string. -/
def is_non_empty_string (val : String) : Bool := decide (0 < val.length)

/-- config_helper.__is_non_zero_int on a string value:
`val.isdigit() and int(val) > 0` — when `isdigit` accepts the value the
`int(val)` call is evaluated, and it raises ValueError on a non-decimal
digit, so this validator can itself raise. -/
def ch_is_non_zero_int : Validator := fun val =>
  if pyStrIsDigit val then
    match pyInt? val with
    | some n => .ok (decide (0 < n))
    | none => .error .valueError
  else .ok false

/-! ## config_helper.py configuration validation

The environment is a finite map from variable names to string values,
embedded as an association list.  `os.path.isdir` is an oracle parameter.
The logged field-level error reports are made explicit: each check function
returns the validity flag together with the list of offending variable names,
in the order they are reported. -/

abbrev EnvMap := List (String × String)

/-- The `__AVAILABLE_MODULES` keys of config_helper.py (manjaro and
raspberry_pi_os are commented out in the source). -/
def availableModules : List String := ["arch", "example", "debian"]

/-- `__REQUIRED_VALIDATORS` of config_helper.py. -/
def requiredValidators : List (String × Validator) :=
  [("DUMPER_MODULES", vOk (fun v => is_atomic_csv v availableModules))]

/-- `__OPTIONAL_VALIDATORS` of config_helper.py, in dict insertion order. -/
def optionalValidators (isdir : String → Bool) : List (String × Validator) :=
  [ ("DUMPER_CACHE", vOk (fun v => is_non_empty_string v && isdir v)),
    ("DUMPER_DEBUG", vOk is_bool_string),
    ("DUMPER_DIRECTORY", vOk (fun v => is_non_empty_string v && isdir v)),
    ("DUMPER_INTERVAL", ch_is_non_zero_int) ]

/-- The loop over required validators: a missing or invalid variable clears
the flag and reports the variable name and the loop itself never stops
early, but an exception raised by a validator call propagates out of the
whole loop at once. -/
def checkRequired (vs : List (String × Validator)) (env : EnvMap)
    (init : Bool × List String) : Except PyExc (Bool × List String) :=
  match vs with
  | [] => .ok init
  | nv :: rest =>
      match env.lookup nv.1 with
      | none => checkRequired rest env (false, init.2 ++ [nv.1])
      | some v =>
          match nv.2 v with
          | .error e => .error e
          | .ok true => checkRequired rest env init
          | .ok false => checkRequired rest env (false, init.2 ++ [nv.1])

/-- The loop over optional validators: only present variables are checked,
an invalid one clears the flag and reports the name and the loop itself
never stops early, but an exception raised by a validator call propagates
out of the whole loop at once. -/
def checkOptional (vs : List (String × Validator)) (env : EnvMap)
    (init : Bool × List String) : Except PyExc (Bool × List String) :=
  match vs with
  | [] => .ok init
  | nv :: rest =>
      match env.lookup nv.1 with
      | none => checkOptional rest env init
      | some v =>
          match nv.2 v with
          | .error e => .error e
          | .ok true => checkOptional rest env init
          | .ok false => checkOptional rest env (false, init.2 ++ [nv.1])

/-- config_helper.verify_environment: checks required variables first, then
present optional variables, starting from `valid = True`; returns the final
flag and every reported variable name, or propagates an exception raised by
a validator call. -/
def verify_environment (env : EnvMap) (isdir : String → Bool) :
    Except PyExc (Bool × List String) :=
  match checkRequired requiredValidators env (true, []) with
  | .error e => .error e
  | .ok r => checkOptional (optionalValidators isdir) env r

/-- A required variable fails iff it is missing or its value is invalid. -/
def requiredFails (env : EnvMap) (nv : String × Validator) : Bool :=
  match env.lookup nv.1 with
  | none => true
  | some v =>
      match nv.2 v with
      | .ok b => !b
      | .error _ => true

/-- An optional variable fails iff it is present with an invalid value. -/
def optionalFails (env : EnvMap) (nv : String × Validator) : Bool :=
  match env.lookup nv.1 with
  | none => false
  | some v =>
      match nv.2 v with
      | .ok b => !b
      | .error _ => true

/-- A validator call raises iff its variable is present and the call on the
value returns an exception. -/
def validatorThrows (env : EnvMap) (nv : String × Validator) : Bool :=
  match env.lookup nv.1 with
  | none => false
  | some v =>
      match nv.2 v with
      | .ok _ => false
      | .error _ => true

/-! ## modules/arch.py -/

/-- `__OPTIONAL_VALIDATORS` of arch.py: exact, case-sensitive `true`/`false`
(these checks cannot raise). -/
def archOptionalValidators : List (String × Validator) :=
  [ ("ARCH_GET_ALL", vOk (fun v => (["true", "false"] : List String).contains v)),
    ("ARCH_GET_AVAILABLE", vOk (fun v => (["true", "false"] : List String).contains v)) ]

/-- arch.verify_config: only optional variables, starting from `valid = True`. -/
def arch_verify_config (env : EnvMap) : Except PyExc (Bool × List String) :=
  checkOptional archOptionalValidators env (true, [])

/-- ArchConfiguration with its source defaults. -/
structure ArchConfiguration where
  get_all : Bool := false
  get_available : Bool := false
deriving DecidableEq

/-- arch.generate_from_environment: starts from the defaults and sets each
flag to `raw_val == "true"` when the variable is present. -/
def archGenerateFromEnvironment (env : EnvMap) : ArchConfiguration :=
  let c0 : ArchConfiguration := {}
  let c1 :=
    match env.lookup "ARCH_GET_ALL" with
    | some v => { c0 with get_all := v == "true" }
    | none => c0
  match env.lookup "ARCH_GET_AVAILABLE" with
  | some v => { c1 with get_available := v == "true" }
  | none => c1

/-- The regex `archlinux-(\d{4})\.(\d{2})\.(\d{2})-x86_64\.iso` of arch.py. -/
def archPattern : List RPiece :=
  [ .lit "archlinux-".data,
    .grpRep 4 Char.isDigit, .lit ".".data,
    .grpRep 2 Char.isDigit, .lit ".".data,
    .grpRep 2 Char.isDigit,
    .lit "-x86_64.iso".data ]

/-- `_TORRENT_FORMAT` instantiated. -/
def archTorrentUrl (year major minor : String) : String :=
  "https://archlinux.org/releng/releases/" ++ year ++ "." ++ major ++ "." ++ minor ++ "/torrent/"

/-- `_FILENAME_FORMAT` instantiated. -/
def archFilename (year major minor : String) : String :=
  "archlinux-" ++ year ++ "-" ++ major ++ "-" ++ minor ++ "-x86_64.torrent"

/-- ArchWorker._get_download_links: search every link for the ISO-name regex
and collect filename-to-URL entries built from the captured date parts. -/
def archGetDownloadLinks (links : List String) : List (String × String) :=
  links.foldl (fun result link =>
    match searchPieces archPattern link.data with
    | some [y, ma, mi] =>
        dictInsert result (archFilename ⟨y⟩ ⟨ma⟩ ⟨mi⟩) (archTorrentUrl ⟨y⟩ ⟨ma⟩ ⟨mi⟩)
    | _ => result) []

/-- Exceptions raised by the embedded workers: `ModuleExternalError` from
distrodumper/__init__.py, kept distinct from a programming error such as the
`IndexError` raised by indexing an empty list and from a raw exception of
the requests library (timeout, connection error) that no module code
catches. -/
inductive PyError where
  | moduleExternal : String → PyError
  | indexError : PyError
  | requestsError : PyError
deriving DecidableEq

/-- ArchWorker.dump over the outcome of `requests.get(_PAGE_URL)`.  That call
sits in no try/except, so a requests exception (timeout, connection error) —
modelled as `fetch = none` — propagates out of dump as a raw requests error,
not as ModuleExternalError; `fetch = some (status, links)` models a received
response, abstracted to its status code and the hrefs extracted from its
HTML.  A received non-200 status raises ModuleExternalError; with `get_all`
unset the candidate keys are sorted in reverse and `keys[0]` is taken, which
raises IndexError when there are no candidates. -/
def archDump (cfg : ArchConfiguration) (fetch : Option (Nat × List String)) :
    Except PyError (List (String × String)) :=
  match fetch with
  | none => .error .requestsError
  | some (status, links) =>
      if status ≠ 200 then
        .error (.moduleExternal "Unable to get the release-page from Archlinux.org")
      else
        let candidates := archGetDownloadLinks links
        if cfg.get_all then .ok candidates
        else
          match pySortDesc (candidates.map Prod.fst) with
          | [] => .error .indexError
          | k :: _ => .ok [(k, (List.lookup k candidates).getD "")]

instance {e a : Type _} [DecidableEq e] [DecidableEq a] : DecidableEq (Except e a) := fun x y =>
  match x, y with
  | .error u, .error v =>
      if h : u = v then isTrue (congrArg Except.error h) else isFalse (fun hc => h (Except.error.inj hc))
  | .ok u, .ok v =>
      if h : u = v then isTrue (congrArg Except.ok h) else isFalse (fun hc => h (Except.ok.inj hc))
  | .error _, .ok _ => isFalse (fun hc => Except.noConfusion hc)
  | .ok _, .error _ => isFalse (fun hc => Except.noConfusion hc)

/-! ## modules/debian.py -/

/-- `[a-zA-Z]`. -/
def pyAlpha (c : Char) : Bool := c.isAlpha

/-- `\w` (on the ASCII range Python uses for these filenames). -/
def pyWord (c : Char) : Bool := c.isAlphanum || c == '_'

/-- `.` in a pattern: any character except a newline. -/
def pyDotAny (c : Char) : Bool := c != '\n'

/-- The regex `^debian-([a-zA-Z]*)-*(\d+)\.(\d+)\.(\d+)-(\w*)-.*\.torrent?` of
debian.py (anchored at the start, searched with `regex.search`). -/
def debianPattern : List RPiece :=
  [ .lit "debian-".data,
    .grpStar pyAlpha,
    .skipStar (fun c => c == '-'),
    .grpPlus Char.isDigit, .lit ".".data,
    .grpPlus Char.isDigit, .lit ".".data,
    .grpPlus Char.isDigit, .lit "-".data,
    .grpStar pyWord, .lit "-".data,
    .skipStar pyDotAny,
    .lit ".torren".data,
    .optChar 't' ]

/-- `_TORRENT_URL_FORMAT` instantiated. -/
def debianTorrentUrl (arch media filename : String) : String :=
  "https://cdimage.debian.org/debian-cd/current/" ++ arch ++ "/bt-" ++ media ++ "/" ++ filename

structure DebianConfiguration where
  requested_archs : List String
  requested_media : List String
  extra_flavors : List String := []
deriving DecidableEq

/-- DebianWorker._get_download_links: keep the links matching the torrent
regex, drop unrequested non-empty flavors, and key the result by the raw link.
The Python body rebinds its `arch` parameter to the architecture captured by
the regex before formatting the URL, so the embedded URL uses the captured
group; the `arch` parameter is consequently unused. -/
def debianGetDownloadLinks (extra_flavors : List String) (arch media : String)
    (links : List String) : List (String × String) :=
  links.foldl (fun result link =>
    match matchPieces debianPattern link.data with
    | some [flavorC, _maj, _min, _pat, archC] =>
        let flavor : String := ⟨flavorC⟩
        if 0 < flavor.length && !(extra_flavors.contains flavor) then result
        else dictInsert result link (debianTorrentUrl ⟨archC⟩ media link)
    | _ => result) []

/-- The per-(arch, media) index url of debian.py. -/
def debianIndexUrl (arch media : String) : String :=
  "https://cdimage.debian.org/debian-cd/current/" ++ arch ++ "/bt-" ++ media ++ "/"

/-- The (arch, media) pairs in the nested-loop order of DebianWorker.dump. -/
def debianPairs (cfg : DebianConfiguration) : List (String × String) :=
  (cfg.requested_archs.map (fun a => cfg.requested_media.map (fun m => (a, m)))).flatten

/-- The loop body of DebianWorker.dump: fetch each index in order; a failed
index fetch raises ModuleExternalError, otherwise the filtered candidates are
merged into the accumulated dict.  The fetched page is abstracted to the list
of hrefs extracted from its HTML. -/
def debianDumpGo (extra_flavors : List String) (fetch : String → Option (List String)) :
    List (String × String) → List (String × String) → Except PyError (List (String × String))
  | [], acc => .ok acc
  | (a, m) :: rest, acc =>
      match fetch (debianIndexUrl a m) with
      | none => .error (.moduleExternal ("Debian module couldn't fetch the " ++ a ++ "-" ++ m ++ " index"))
      | some links =>
          debianDumpGo extra_flavors fetch rest
            (dictUpdate acc (debianGetDownloadLinks extra_flavors a m links))

/-- DebianWorker.dump. -/
def debianDump (cfg : DebianConfiguration) (fetch : String → Option (List String)) :
    Except PyError (List (String × String)) :=
  debianDumpGo cfg.extra_flavors fetch (debianPairs cfg) []

/-! ## modules/manjaro.py, modules/rpios.py and modules/cachyos.py

Only the listing-fetch error handling of these workers is needed by the
claims, so each dump is embedded with its link-filtering stage
(`_get_download_links`, respectively the CachyOS torrent collection) as an
explicit function parameter and the fetched page abstracted to its extracted
links; the try/except structure around the fetch is translated from the
source. -/

/-- ManjaroWorker.dump: a failed index fetch raises ModuleExternalError,
otherwise `_get_download_links` is applied to the extracted links. -/
def manjaroDumpWith (getLinks : List String → List (String × String))
    (fetch : Option (List String)) : Except PyError (List (String × String)) :=
  match fetch with
  | none => .error (.moduleExternal "Manjaro module couldn't fetch the Manjaro index.")
  | some links => .ok (getLinks links)

/-- RPiOsWorker.dump: a failed index fetch raises ModuleExternalError,
otherwise `_get_download_links` is applied to the extracted links. -/
def rpiosDumpWith (getLinks : List String → List (String × String))
    (fetch : Option (List String)) : Except PyError (List (String × String)) :=
  match fetch with
  | none => .error (.moduleExternal "Raspberry Pi OS module couldn't fetch the index.")
  | some links => .ok (getLinks links)

/-- CachyOsWorker.dump: the fetch of the downloads page sits in a
try/except whose except branch logs the error and returns an empty dict, so a
failed listing fetch yields a successful empty result instead of raising. -/
def cachyosDumpWith (collect : List String → List (String × String))
    (fetch : Option (List String)) : Except PyError (List (String × String)) :=
  match fetch with
  | none => .ok []
  | some links => .ok (collect links)

/-! ## file_helper.py

The cache and dump directories are flat sets of filenames; a list of
filenames stands for the set of regular files in the directory. -/

structure FsState where
  cache : List String
  dump : List String
deriving DecidableEq

/-- `os.remove` of a filename from a directory. -/
def fsRemove (files : List String) (fn : String) : List String :=
  files.filter (fun x => x != fn)

/-- Creating (or truncating and rewriting) a file in a directory. -/
def fsAdd (files : List String) (fn : String) : List String :=
  fn :: fsRemove files fn

/-- file_helper.get_files_in_cache: the set of files in the cache directory. -/
def get_files_in_cache (st : FsState) : List String := st.cache

/-- file_helper.download.  `fetch url = none` stands for any exception while
fetching or writing (non-2xx status via raise_for_status, timeout, connection
or write error): the partial cache file is removed if it exists and `False`
is returned.  On fetch success the complete cache file exists and
`shutil.copy` to the dump directory is attempted, `copyOk` telling whether it
succeeds; on copy failure both the cache file and the (possibly partial) dump
file are removed and `False` is returned.  Opening the cache file for
exclusive write is modelled as succeeding, since `cache_dir` is required to
be a writable directory. -/
def download (fetch : String → Option Nat) (copyOk : String → Bool) (st : FsState)
    (filename url : String) : Bool × FsState :=
  match fetch url with
  | none => (false, { st with cache := fsRemove st.cache filename })
  | some _ =>
      let st1 := { st with cache := fsAdd st.cache filename }
      if copyOk filename then (true, { st1 with dump := fsAdd st1.dump filename })
      else (false, { cache := fsRemove st1.cache filename, dump := fsRemove st1.dump filename })

/-! ## The reconciliation engine

Modelled from the spec: the per-module reconciliation engine of spec section
4.3 (snapshot the cache once per run, count a candidate whose filename is in
the snapshot as duplicate, download the rest with fail-clean semantics and
count downloaded/failed, then report per-module counts) is not itself under
src/ — only its collaborators `get_files_in_cache` and `download`
(src/distrodumper/file_helper.py) and the module workers are.  The engine
below follows the spec's algorithm, records one event per candidate and
derives the RunReport counts from the events; downloads use the `download`
embedding translated from the source. -/

inductive RunEvent where
  | duplicate : String → RunEvent
  | downloaded : String → RunEvent
  | failed : String → RunEvent
deriving DecidableEq

structure RunReport where
  downloaded : Nat
  duplicate : Nat
  failed : Nat
deriving DecidableEq

/-- The per-module RunReport derived from the per-candidate events. -/
def report : List RunEvent → RunReport
  | [] => ⟨0, 0, 0⟩
  | e :: rest =>
      let r := report rest
      match e with
      | .downloaded _ => { r with downloaded := r.downloaded + 1 }
      | .duplicate _ => { r with duplicate := r.duplicate + 1 }
      | .failed _ => { r with failed := r.failed + 1 }

/-- Modelled from the spec: process one module's candidate list against the
run-initial cache snapshot `cached`; snapshot members count as duplicate, the
rest are downloaded with `download`, and a failed candidate is recorded and
processing continues with the next candidate. -/
def processCandidates (fetch : String → Option Nat) (copyOk : String → Bool)
    (cached : List String) :
    List (String × String) → FsState → List RunEvent × FsState
  | [], st => ([], st)
  | (fn, url) :: rest, st =>
      if fn ∈ cached then
        let r := processCandidates fetch copyOk cached rest st
        (.duplicate fn :: r.1, r.2)
      else
        let d := download fetch copyOk st fn url
        let r := processCandidates fetch copyOk cached rest d.2
        ((if d.1 then .downloaded fn else .failed fn) :: r.1, r.2)

/-- Modelled from the spec: run every module's candidate list in order
against the same run-initial snapshot. -/
def runModules (fetch : String → Option Nat) (copyOk : String → Bool)
    (cached : List String) :
    List (List (String × String)) → FsState → List (List RunEvent) × FsState
  | [], st => ([], st)
  | m :: ms, st =>
      let r := processCandidates fetch copyOk cached m st
      let rr := runModules fetch copyOk cached ms r.2
      (r.1 :: rr.1, rr.2)

/-- Modelled from the spec: one reconciliation run — snapshot the cache once
with `get_files_in_cache`, then process every module. -/
def runReconciler (fetch : String → Option Nat) (copyOk : String → Bool)
    (modules : List (List (String × String))) (st : FsState) :
    List (List RunEvent) × FsState :=
  runModules fetch copyOk (get_files_in_cache st) modules st

/-! ## The scheduler loop of src/dumper.py (run)

One loop iteration is `try: __dump() except KeyboardInterrupt: pprint;
sys.exit(0) except Exception: warn finally: pprint; sleep(interval)`.  A
cycle records what the dump step does (returns, raises an ordinary exception,
or is interrupted) and whether the interval sleep in the finally clause is
itself interrupted.  Python semantics embedded here: `sys.exit(0)` raises
SystemExit, which only propagates after the finally clause has run its full
sleep; an exception raised by the finally clause (an interrupt during the
sleep) replaces any pending exception and is not caught by the except clauses
of the same try statement, so it leaves `run` as an unhandled
KeyboardInterrupt. -/

inductive DumpRes where
  | ok : DumpRes
  | raisesError : DumpRes
  | raisesInterrupt : DumpRes
deriving DecidableEq

inductive SleepRes where
  | completes : SleepRes
  | interrupted : SleepRes
deriving DecidableEq

structure LoopCycle where
  dump : DumpRes
  sleep : SleepRes
deriving DecidableEq

inductive LoopAct where
  | dumpStep : LoopAct
  | warnLog : LoopAct
  | sleepInterval : LoopAct
  | exitCode : Nat → LoopAct
deriving DecidableEq

inductive LoopEnd where
  | running : LoopEnd
  | exitZero : LoopEnd
  | uncaughtInterrupt : LoopEnd
deriving DecidableEq

/-- The `while True` loop of run(), as the trace of actions it performs on a
given sequence of cycles together with how (whether) it ends. -/
def runLoop : List LoopCycle → List LoopAct × LoopEnd
  | [] => ([], .running)
  | c :: rest =>
      let bodyActs : List LoopAct :=
        match c.dump with
        | .ok => [.dumpStep]
        | .raisesError => [.dumpStep, .warnLog]
        | .raisesInterrupt => [.dumpStep]
      match c.sleep with
      | .interrupted => (bodyActs, .uncaughtInterrupt)
      | .completes =>
          match c.dump with
          | .raisesInterrupt => (bodyActs ++ [.sleepInterval, .exitCode 0], .exitZero)
          | _ =>
              let r := runLoop rest
              (bodyActs ++ [.sleepInterval] ++ r.1, r.2)

/-! ## Concrete inputs used by the concrete theorems -/

/-- The magnet href carrying the 2025.07.01 Arch ISO name (as in the module's
test fixtures). -/
def archLink07 : String := "magnet:?xt=urn:btih:AAA&dn=archlinux-2025.07.01-x86_64.iso"

/-- The magnet href carrying the 2025.08.01 Arch ISO name. -/
def archLink08 : String := "magnet:?xt=urn:btih:BBB&dn=archlinux-2025.08.01-x86_64.iso"

/-- A release-page link list with no Arch ISO match. -/
def archNoMatchLinks : List String := ["/some/other/link"]

/-- An index href that matches the Debian torrent regex although it contains
directory separators and parent-directory components. -/
def debianEvilLink : String := "debian-12.10.0-amd64-../../evil.torrent"

/-- A two-candidate module list used by the concrete witnesses (the spec's
cache-diff scenario: fileA cached, fileB new). -/
def witModules : List (List (String × String)) :=
  [[("fileA.torrent", "uA"), ("fileB.torrent", "uB")]]

/-- A run-initial state whose cache already holds fileA.torrent. -/
def witState : FsState := ⟨["fileA.torrent"], []⟩

/-- A fetch oracle for which every URL succeeds. -/
def witFetch : String → Option Nat := fun _ => some 0

/-- A copy oracle for which every copy succeeds. -/
def witCopy : String → Bool := fun _ => true

/-- A concrete environment used by the validation witness: a valid module
list, an invalid boolean and an invalid interval. -/
def witEnv : EnvMap :=
  [("DUMPER_MODULES", "arch,debian"), ("DUMPER_DEBUG", "yes"), ("DUMPER_INTERVAL", "0")]

/-- A directory oracle for which every path is a directory. -/
def witIsdir : String → Bool := fun _ => true

/-! ## Helper lemmas about the filesystem model -/

theorem mem_fsRemove {l : List String} {fn x : String} :
    x ∈ fsRemove l fn ↔ x ∈ l ∧ x ≠ fn := by
  simp [fsRemove]

theorem mem_fsAdd {l : List String} {fn x : String} :
    x ∈ fsAdd l fn ↔ x = fn ∨ x ∈ l := by
  constructor
  · intro h
    rcases List.mem_cons.mp h with h | h
    · exact Or.inl h
    · exact Or.inr (mem_fsRemove.mp h).1
  · intro h
    by_cases hx : x = fn
    · exact hx ▸ List.mem_cons_self _ _
    · rcases h with h | h
      · exact absurd h hx
      · exact List.mem_cons_of_mem _ (mem_fsRemove.mpr ⟨h, hx⟩)

theorem download_fetch_none (fetch : String → Option Nat) (copyOk : String → Bool)
    (st : FsState) (fn url : String) (h : fetch url = none) :
    download fetch copyOk st fn url = (false, ⟨fsRemove st.cache fn, st.dump⟩) := by
  simp [download, h]

theorem download_all_ok (fetch : String → Option Nat) (copyOk : String → Bool)
    (st : FsState) (fn url : String) {c : Nat}
    (hf : fetch url = some c) (hc : copyOk fn = true) :
    download fetch copyOk st fn url = (true, ⟨fsAdd st.cache fn, fsAdd st.dump fn⟩) := by
  simp [download, hf, hc]

theorem download_copy_fail (fetch : String → Option Nat) (copyOk : String → Bool)
    (st : FsState) (fn url : String) {c : Nat}
    (hf : fetch url = some c) (hc : copyOk fn = false) :
    download fetch copyOk st fn url
      = (false, ⟨fsRemove (fsAdd st.cache fn) fn, fsRemove st.dump fn⟩) := by
  simp [download, hf, hc]

/-! ## Helper lemmas about the reconciliation engine -/

theorem processCandidates_length {fetch : String → Option Nat} {copyOk : String → Bool}
    {cached : List String} :
    ∀ (m : List (String × String)) (st : FsState),
      (processCandidates fetch copyOk cached m st).1.length = m.length := by
  intro m
  induction m with
  | nil => intro st; simp [processCandidates]
  | cons p rest ih =>
      intro st
      obtain ⟨g, url⟩ := p
      by_cases hg : g ∈ cached
      · simp [processCandidates, hg, ih]
      · simp [processCandidates, hg, ih]

theorem processCandidates_snapshot_no_download {fetch : String → Option Nat}
    {copyOk : String → Bool} {cached : List String} {fn : String} (hfn : fn ∈ cached) :
    ∀ (m : List (String × String)) (st : FsState),
      RunEvent.downloaded fn ∉ (processCandidates fetch copyOk cached m st).1
      ∧ RunEvent.failed fn ∉ (processCandidates fetch copyOk cached m st).1 := by
  intro m
  induction m with
  | nil => intro st; simp [processCandidates]
  | cons p rest ih =>
      intro st
      obtain ⟨g, url⟩ := p
      by_cases hg : g ∈ cached
      · simp only [processCandidates, if_pos hg]
        refine ⟨fun hmem => ?_, fun hmem => ?_⟩
        · rcases List.mem_cons.mp hmem with hc | hc
          · exact RunEvent.noConfusion hc
          · exact (ih st).1 hc
        · rcases List.mem_cons.mp hmem with hc | hc
          · exact RunEvent.noConfusion hc
          · exact (ih st).2 hc
      · have hne : fn ≠ g := fun e => hg (e ▸ hfn)
        simp only [processCandidates, if_neg hg]
        refine ⟨fun hmem => ?_, fun hmem => ?_⟩
        · rcases List.mem_cons.mp hmem with hc | hc
          · by_cases hd : (download fetch copyOk st g url).1 = true
            · rw [if_pos hd] at hc
              exact hne (RunEvent.downloaded.inj hc)
            · rw [if_neg hd] at hc
              exact RunEvent.noConfusion hc
          · exact (ih _).1 hc
        · rcases List.mem_cons.mp hmem with hc | hc
          · by_cases hd : (download fetch copyOk st g url).1 = true
            · rw [if_pos hd] at hc
              exact RunEvent.noConfusion hc
            · rw [if_neg hd] at hc
              exact hne (RunEvent.failed.inj hc)
          · exact (ih _).2 hc

theorem processCandidates_snapshot_duplicate {fetch : String → Option Nat}
    {copyOk : String → Bool} {cached : List String} {fn : String} (hfn : fn ∈ cached) :
    ∀ (m : List (String × String)) (st : FsState),
      fn ∈ m.map Prod.fst →
      RunEvent.duplicate fn ∈ (processCandidates fetch copyOk cached m st).1 := by
  intro m
  induction m with
  | nil => intro st h; simp at h
  | cons p rest ih =>
      intro st hmem
      obtain ⟨g, url⟩ := p
      rcases List.mem_cons.mp hmem with hc | hc
      · -- fn is the head candidate's filename, so g = fn ∈ cached
        have hg : g ∈ cached := by
          have : g = fn := hc.symm
          exact this ▸ hfn
        simp only [processCandidates, if_pos hg]
        exact hc ▸ List.mem_cons_self _ _
      · by_cases hg : g ∈ cached
        · simp only [processCandidates, if_pos hg]
          exact List.mem_cons_of_mem _ (ih st hc)
        · simp only [processCandidates, if_neg hg]
          exact List.mem_cons_of_mem _ (ih _ hc)

theorem processCandidates_failed_recorded {fetch : String → Option Nat}
    {copyOk : String → Bool} {cached : List String} {fn url : String} :
    ∀ (m : List (String × String)) (st : FsState),
      (fn, url) ∈ m → fn ∉ cached → fetch url = none →
      RunEvent.failed fn ∈ (processCandidates fetch copyOk cached m st).1 := by
  intro m
  induction m with
  | nil => intro st h; simp at h
  | cons p rest ih =>
      intro st hmem hfn hfetch
      obtain ⟨g, gurl⟩ := p
      rcases List.mem_cons.mp hmem with hc | hc
      · injection hc with hg hu
        subst hg
        subst hu
        have hd := download_fetch_none fetch copyOk st fn url hfetch
        simp [processCandidates, hfn, hd]
      · by_cases hg : g ∈ cached
        · simp only [processCandidates, if_pos hg]
          exact List.mem_cons_of_mem _ (ih st hc hfn hfetch)
        · simp only [processCandidates, if_neg hg]
          exact List.mem_cons_of_mem _ (ih _ hc hfn hfetch)

theorem processCandidates_success_cache {fetch : String → Option Nat}
    {copyOk : String → Bool} {cached : List String} :
    ∀ (m : List (String × String)) (st : FsState),
      (∀ c ∈ m, fetch c.2 ≠ none ∧ copyOk c.1 = true) →
      cached ⊆ st.cache →
      (∀ x ∈ st.cache, x ∈ (processCandidates fetch copyOk cached m st).2.cache)
      ∧ (∀ c ∈ m, c.1 ∈ (processCandidates fetch copyOk cached m st).2.cache) := by
  intro m
  induction m with
  | nil => intro st _ _; exact ⟨fun x hx => by simpa [processCandidates] using hx, by simp⟩
  | cons p rest ih =>
      intro st hs hc
      obtain ⟨g, url⟩ := p
      have hghd := hs (g, url) (List.mem_cons_self _ _)
      have hsrest : ∀ c ∈ rest, fetch c.2 ≠ none ∧ copyOk c.1 = true :=
        fun c hcm => hs c (List.mem_cons_of_mem _ hcm)
      by_cases hg : g ∈ cached
      · have hrec := ih st hsrest hc
        have hmono : ∀ x ∈ st.cache, x ∈ (processCandidates fetch copyOk cached ((g, url) :: rest) st).2.cache := by
          intro x hx
          simpa [processCandidates, hg] using hrec.1 x hx
        refine ⟨hmono, ?_⟩
        intro c hcm
        rcases List.mem_cons.mp hcm with hhd | htl
        · have : c.1 = g := by rw [hhd]
          exact this ▸ hmono g (hc hg)
        · simpa [processCandidates, hg] using hrec.2 c htl
      · obtain ⟨content, hcontent⟩ := Option.ne_none_iff_exists'.mp hghd.1
        have hdl := download_all_ok fetch copyOk st g url hcontent hghd.2
        have hst1 : (download fetch copyOk st g url).2 = ⟨fsAdd st.cache g, fsAdd st.dump g⟩ := by
          rw [hdl]
        have hsub1 : cached ⊆ fsAdd st.cache g := fun x hx => mem_fsAdd.mpr (Or.inr (hc hx))
        have hrec := ih ⟨fsAdd st.cache g, fsAdd st.dump g⟩ hsrest hsub1
        have heq : (processCandidates fetch copyOk cached ((g, url) :: rest) st).2
            = (processCandidates fetch copyOk cached rest ⟨fsAdd st.cache g, fsAdd st.dump g⟩).2 := by
          simp [processCandidates, hg, hdl]
        refine ⟨?_, ?_⟩
        · intro x hx
          rw [heq]
          exact hrec.1 x (mem_fsAdd.mpr (Or.inr hx))
        · intro c hcm
          rcases List.mem_cons.mp hcm with hhd | htl
          · have : c.1 = g := by rw [hhd]
            rw [heq, this]
            exact hrec.1 g (mem_fsAdd.mpr (Or.inl rfl))
          · rw [heq]
            exact hrec.2 c htl

theorem processCandidates_all_cached (fetch : String → Option Nat)
    (copyOk : String → Bool) (cached : List String) :
    ∀ (m : List (String × String)) (st : FsState),
      (∀ c ∈ m, c.1 ∈ cached) →
      processCandidates fetch copyOk cached m st
        = (m.map (fun c => RunEvent.duplicate c.1), st) := by
  intro m
  induction m with
  | nil => intro st _; simp [processCandidates]
  | cons p rest ih =>
      intro st hall
      obtain ⟨g, url⟩ := p
      have hg : g ∈ cached := hall (g, url) (List.mem_cons_self _ _)
      have hrest : ∀ c ∈ rest, c.1 ∈ cached := fun c hcm => hall c (List.mem_cons_of_mem _ hcm)
      simp [processCandidates, hg, ih st hrest]

theorem report_duplicate_map (m : List (String × String)) :
    report (m.map (fun c => RunEvent.duplicate c.1)) = ⟨0, m.length, 0⟩ := by
  induction m with
  | nil => rfl
  | cons p rest ih => simp [report, ih]

theorem report_duplicate_pos {fn : String} :
    ∀ {evs : List RunEvent}, RunEvent.duplicate fn ∈ evs → 0 < (report evs).duplicate := by
  intro evs
  induction evs with
  | nil => intro h; simp at h
  | cons e rest ih =>
      intro h
      rcases List.mem_cons.mp h with hc | hc
      · rw [← hc]; simp [report]
      · have := ih hc
        cases e <;> simp [report] <;> omega

theorem runModules_length {fetch : String → Option Nat} {copyOk : String → Bool}
    {cached : List String} :
    ∀ (modules : List (List (String × String))) (st : FsState),
      (runModules fetch copyOk cached modules st).1.length = modules.length := by
  intro modules
  induction modules with
  | nil => intro st; simp [runModules]
  | cons m ms ih => intro st; simp [runModules, ih]

theorem runModules_snapshot_no_download {fetch : String → Option Nat}
    {copyOk : String → Bool} {cached : List String} {fn : String} (hfn : fn ∈ cached) :
    ∀ (modules : List (List (String × String))) (st : FsState),
      ∀ evs ∈ (runModules fetch copyOk cached modules st).1,
        RunEvent.downloaded fn ∉ evs ∧ RunEvent.failed fn ∉ evs := by
  intro modules
  induction modules with
  | nil => intro st evs h; simp [runModules] at h
  | cons m ms ih =>
      intro st evs h
      rcases List.mem_cons.mp (by simpa [runModules] using h) with hc | hc
      · exact hc ▸ processCandidates_snapshot_no_download hfn m st
      · exact ih _ evs hc

theorem runModules_snapshot_duplicate {fetch : String → Option Nat}
    {copyOk : String → Bool} {cached : List String} {fn : String} (hfn : fn ∈ cached) :
    ∀ (modules : List (List (String × String))) (st : FsState),
      ∀ p ∈ modules.zip (runModules fetch copyOk cached modules st).1,
        fn ∈ p.1.map Prod.fst → RunEvent.duplicate fn ∈ p.2 := by
  intro modules
  induction modules with
  | nil => intro st p h; simp [runModules] at h
  | cons m ms ih =>
      intro st p h hmem
      rcases List.mem_cons.mp (by simpa [runModules] using h) with hc | hc
      · subst hc
        exact processCandidates_snapshot_duplicate hfn m st hmem
      · exact ih _ p hc hmem

theorem runModules_success_cache (fetch : String → Option Nat)
    (copyOk : String → Bool) (cached : List String) :
    ∀ (modules : List (List (String × String))) (st : FsState),
      (∀ m ∈ modules, ∀ c ∈ m, fetch c.2 ≠ none ∧ copyOk c.1 = true) →
      cached ⊆ st.cache →
      (∀ x ∈ st.cache, x ∈ (runModules fetch copyOk cached modules st).2.cache)
      ∧ (∀ m ∈ modules, ∀ c ∈ m, c.1 ∈ (runModules fetch copyOk cached modules st).2.cache) := by
  intro modules
  induction modules with
  | nil => intro st _ _; exact ⟨fun x hx => by simpa [runModules] using hx, by simp⟩
  | cons m ms ih =>
      intro st hs hc
      have hm := processCandidates_success_cache m st (hs m (List.mem_cons_self _ _)) hc
      have hsrest : ∀ mm ∈ ms, ∀ c ∈ mm, fetch c.2 ≠ none ∧ copyOk c.1 = true :=
        fun mm hmm => hs mm (List.mem_cons_of_mem _ hmm)
      have hcrest : cached ⊆ (processCandidates fetch copyOk cached m st).2.cache :=
        fun x hx => hm.1 x (hc hx)
      have hrec := ih (processCandidates fetch copyOk cached m st).2 hsrest hcrest
      have heq : (runModules fetch copyOk cached (m :: ms) st).2
          = (runModules fetch copyOk cached ms (processCandidates fetch copyOk cached m st).2).2 := by
        simp [runModules]
      refine ⟨?_, ?_⟩
      · intro x hx
        rw [heq]
        exact hrec.1 x (hm.1 x hx)
      · intro mm hmm c hcm
        rcases List.mem_cons.mp hmm with hhd | htl
        · rw [heq]
          exact hrec.1 c.1 (hm.2 c (hhd ▸ hcm))
        · rw [heq]
          exact hrec.2 mm htl c hcm

theorem runModules_all_cached (fetch : String → Option Nat)
    (copyOk : String → Bool) (cached : List String) :
    ∀ (modules : List (List (String × String))) (st : FsState),
      (∀ m ∈ modules, ∀ c ∈ m, c.1 ∈ cached) →
      runModules fetch copyOk cached modules st
        = (modules.map (fun m => m.map (fun c => RunEvent.duplicate c.1)), st) := by
  intro modules
  induction modules with
  | nil => intro st _; simp [runModules]
  | cons m ms ih =>
      intro st hall
      have hm := processCandidates_all_cached fetch copyOk cached
        m st (hall m (List.mem_cons_self _ _))
      have hrest : ∀ mm ∈ ms, ∀ c ∈ mm, c.1 ∈ cached :=
        fun mm hmm => hall mm (List.mem_cons_of_mem _ hmm)
      simp [runModules, hm, ih st hrest]

theorem zip_map_self {α β : Type _} (f : α → β) :
    ∀ (l : List α), ∀ p ∈ l.zip (l.map f), p.2 = f p.1 := by
  intro l
  induction l with
  | nil => intro p h; simp at h
  | cons a rest ih =>
      intro p h
      rcases List.mem_cons.mp (by simpa using h) with hc | hc
      · rw [hc]
      · exact ih p hc

/-! ## Helper lemmas about configuration validation -/

theorem vOk_never_throws (env : EnvMap) (name : String) (f : String → Bool) :
    validatorThrows env (name, vOk f) = false := by
  cases h : env.lookup name <;> simp [validatorThrows, vOk, h]

theorem checkRequired_spec (env : EnvMap) :
    ∀ (vs : List (String × Validator)) (init : Bool × List String),
      (∀ nv ∈ vs, validatorThrows env nv = false) →
      checkRequired vs env init
        = .ok (init.1 && vs.all (fun nv => !(requiredFails env nv)),
               init.2 ++ (vs.filter (requiredFails env)).map Prod.fst) := by
  intro vs
  induction vs with
  | nil => intro init _; simp [checkRequired]
  | cons nv rest ih =>
      intro init hnt
      have hntrest : ∀ nv ∈ rest, validatorThrows env nv = false :=
        fun x hx => hnt x (List.mem_cons_of_mem _ hx)
      cases h : env.lookup nv.1 with
      | none =>
          have hstep : checkRequired (nv :: rest) env init
              = checkRequired rest env (false, init.2 ++ [nv.1]) := by
            simp [checkRequired, h]
          rw [hstep, ih _ hntrest]
          simp [requiredFails, h]
      | some v =>
          cases hv : nv.2 v with
          | error e =>
              have := hnt nv (List.mem_cons_self _ _)
              simp [validatorThrows, h, hv] at this
          | ok b =>
              cases b with
              | true =>
                  have hstep : checkRequired (nv :: rest) env init
                      = checkRequired rest env init := by
                    simp [checkRequired, h, hv]
                  rw [hstep, ih _ hntrest]
                  simp [requiredFails, h, hv]
              | false =>
                  have hstep : checkRequired (nv :: rest) env init
                      = checkRequired rest env (false, init.2 ++ [nv.1]) := by
                    simp [checkRequired, h, hv]
                  rw [hstep, ih _ hntrest]
                  simp [requiredFails, h, hv]

theorem checkOptional_spec (env : EnvMap) :
    ∀ (vs : List (String × Validator)) (init : Bool × List String),
      (∀ nv ∈ vs, validatorThrows env nv = false) →
      checkOptional vs env init
        = .ok (init.1 && vs.all (fun nv => !(optionalFails env nv)),
               init.2 ++ (vs.filter (optionalFails env)).map Prod.fst) := by
  intro vs
  induction vs with
  | nil => intro init _; simp [checkOptional]
  | cons nv rest ih =>
      intro init hnt
      have hntrest : ∀ nv ∈ rest, validatorThrows env nv = false :=
        fun x hx => hnt x (List.mem_cons_of_mem _ hx)
      cases h : env.lookup nv.1 with
      | none =>
          have hstep : checkOptional (nv :: rest) env init
              = checkOptional rest env init := by
            simp [checkOptional, h]
          rw [hstep, ih _ hntrest]
          simp [optionalFails, h]
      | some v =>
          cases hv : nv.2 v with
          | error e =>
              have := hnt nv (List.mem_cons_self _ _)
              simp [validatorThrows, h, hv] at this
          | ok b =>
              cases b with
              | true =>
                  have hstep : checkOptional (nv :: rest) env init
                      = checkOptional rest env init := by
                    simp [checkOptional, h, hv]
                  rw [hstep, ih _ hntrest]
                  simp [optionalFails, h, hv]
              | false =>
                  have hstep : checkOptional (nv :: rest) env init
                      = checkOptional rest env (false, init.2 ++ [nv.1]) := by
                    simp [checkOptional, h, hv]
                  rw [hstep, ih _ hntrest]
                  simp [optionalFails, h, hv]

/-! ## Helper lemmas about the scheduler loop and the Debian dump loop -/

theorem runLoop_no_interrupt :
    ∀ (cycles : List LoopCycle),
      (∀ c ∈ cycles, c.dump ≠ DumpRes.raisesInterrupt ∧ c.sleep = SleepRes.completes) →
      (runLoop cycles).2 = LoopEnd.running := by
  intro cycles
  induction cycles with
  | nil => intro _; rfl
  | cons c rest ih =>
      intro h
      obtain ⟨hd, hs⟩ := h c (List.mem_cons_self _ _)
      have hrest := fun c' hc' => h c' (List.mem_cons_of_mem _ hc')
      cases hcd : c.dump with
      | raisesInterrupt => exact absurd hcd hd
      | ok => simp [runLoop, hcd, hs, ih hrest]
      | raisesError => simp [runLoop, hcd, hs, ih hrest]

theorem runLoop_exit_only_on_interrupt :
    ∀ (cycles : List LoopCycle),
      (runLoop cycles).2 = LoopEnd.exitZero →
      ∃ c ∈ cycles, c.dump = DumpRes.raisesInterrupt := by
  intro cycles
  induction cycles with
  | nil => intro h; simp [runLoop] at h
  | cons c rest ih =>
      intro h
      cases hs : c.sleep with
      | interrupted => simp [runLoop, hs] at h
      | completes =>
          cases hcd : c.dump with
          | raisesInterrupt => exact ⟨c, List.mem_cons_self _ _, hcd⟩
          | ok =>
              have : (runLoop rest).2 = LoopEnd.exitZero := by simpa [runLoop, hs, hcd] using h
              obtain ⟨c', hc', hd'⟩ := ih this
              exact ⟨c', List.mem_cons_of_mem _ hc', hd'⟩
          | raisesError =>
              have : (runLoop rest).2 = LoopEnd.exitZero := by simpa [runLoop, hs, hcd] using h
              obtain ⟨c', hc', hd'⟩ := ih this
              exact ⟨c', List.mem_cons_of_mem _ hc', hd'⟩

theorem runLoop_error_continues (rest : List LoopCycle) :
    runLoop (⟨DumpRes.raisesError, SleepRes.completes⟩ :: rest)
      = (LoopAct.dumpStep :: LoopAct.warnLog :: LoopAct.sleepInterval :: (runLoop rest).1,
         (runLoop rest).2) := rfl

theorem debianDumpGo_error {extra : List String} {fetch : String → Option (List String)} :
    ∀ (pairs : List (String × String)) (acc : List (String × String)),
      (∃ p ∈ pairs, fetch (debianIndexUrl p.1 p.2) = none) →
      ∃ msg, debianDumpGo extra fetch pairs acc = .error (.moduleExternal msg) := by
  intro pairs
  induction pairs with
  | nil => intro acc h; simp at h
  | cons q rest ih =>
      intro acc h
      obtain ⟨a, m⟩ := q
      cases hf : fetch (debianIndexUrl a m) with
      | none =>
          exact ⟨"Debian module couldn't fetch the " ++ a ++ "-" ++ m ++ " index",
            by simp [debianDumpGo, hf]⟩
      | some links =>
          obtain ⟨p, hp, hpf⟩ := h
          rcases List.mem_cons.mp hp with hc | hc
          · rw [hc] at hpf
            exact absurd hpf (by simp [hf])
          · have hrec := ih (dictUpdate acc (debianGetDownloadLinks extra a m links)) ⟨p, hc, hpf⟩
            simpa [debianDumpGo, hf] using hrec

/-! ## Claim theorems -/

/-- Claim C6: for the Arch module, given listing entries for the dates
2025.07.01 and 2025.08.01, dump with get-all disabled resolves exactly one
candidate, the one for 2025.08.01 (the maximum under the sortable zero-padded
version key), and dump with get-all enabled yields exactly two candidates,
one per date. -/
theorem claim_C6_arch_latest_and_all :
    archDump ⟨false, false⟩ (some (200, [archLink07, archLink08]))
      = .ok [("archlinux-2025-08-01-x86_64.torrent",
              "https://archlinux.org/releng/releases/2025.08.01/torrent/")]
    ∧ archDump ⟨true, false⟩ (some (200, [archLink07, archLink08]))
      = .ok [("archlinux-2025-07-01-x86_64.torrent",
              "https://archlinux.org/releng/releases/2025.07.01/torrent/"),
             ("archlinux-2025-08-01-x86_64.torrent",
              "https://archlinux.org/releng/releases/2025.08.01/torrent/")] := by
  exact ⟨by decide, by decide⟩

/-- Claim C5 (code bug): a fetch-and-parse cycle with no matching listing
entry should be a success with an empty candidate map, and the claim says
this holds in particular for the Arch module with get_all disabled; on that
very input the embedded ArchWorker.dump instead raises IndexError (keys[0]
on an empty list, arch.py line 115), while with get_all enabled it does
return the empty map. -/
theorem claim_C5_arch_empty_candidates_crash :
    archDump ⟨false, false⟩ (some (200, archNoMatchLinks)) = .error .indexError
    ∧ archDump ⟨true, false⟩ (some (200, archNoMatchLinks)) = .ok [] := by
  exact ⟨by decide, by decide⟩

/-- Claim C8 (code bug): filename keys should be safe, non-empty relative
paths with no separators and no traversal components, but the Debian worker
keys its candidate map by the raw matched href: a link that matches the
torrent regex while containing `/` and `..` becomes a filename key verbatim
(and its URL embeds it), so the invariant fails. -/
theorem claim_C8_debian_traversal_filename :
    debianGetDownloadLinks [] "amd64" "cd" [debianEvilLink]
      = [(debianEvilLink, debianTorrentUrl "amd64" "cd" debianEvilLink)]
    ∧ debianEvilLink.data.contains '/' = true
    ∧ debianEvilLink = "debian-12.10.0-amd64-" ++ "../../" ++ "evil.torrent" := by
  refine ⟨by decide, by decide, by decide⟩

/-- Claim C10: the Arch candidate map is independent of the get_available
flag — dump reads only get_all, so two configurations differing only in
get_available produce identical results — while generate_from_environment
does validate and store the flag from the environment. -/
theorem claim_C10_get_available_independence :
    (∀ (fetch : Option (Nat × List String)) (ga b1 b2 : Bool),
      archDump ⟨ga, b1⟩ fetch = archDump ⟨ga, b2⟩ fetch)
    ∧ (∀ env : EnvMap,
        (archGenerateFromEnvironment env).get_available
          = (env.lookup "ARCH_GET_AVAILABLE" == some "true")) := by
  constructor
  · intro _ _ _ _
    rfl
  · intro env
    cases h1 : env.lookup "ARCH_GET_ALL" <;> cases h2 : env.lookup "ARCH_GET_AVAILABLE" <;>
      simp [archGenerateFromEnvironment, h1, h2]

/-- Claim C2, counterexample: the claim says that after any failed download
operation neither the cache file nor the dump file for that filename exists;
but when the fetch fails while a dump file for that filename already exists
(here: dump holds f.torrent, cache does not), the operation reports failure
and leaves the pre-existing dump file in place. -/
theorem claim_C2_counterexample :
    (download (fun _ => none) (fun _ => true) ⟨[], ["f.torrent"]⟩ "f.torrent" "u").1 = false
    ∧ "f.torrent" ∈ (download (fun _ => none) (fun _ => true)
        ⟨[], ["f.torrent"]⟩ "f.torrent" "u").2.dump := by
  exact ⟨by decide, by decide⟩

/-- Claim C2, amended: if the per-candidate download operation fails (fetch
or write failure, or copy failure) it reports failure and the cache file for
that filename does not exist afterwards; the dump file does not exist either
provided no dump file for that filename existed before the operation — a
pre-existing dump file is deleted on copy failure but left untouched on
fetch failure. -/
theorem claim_C2_failed_download_clean
    (fetch : String → Option Nat) (copyOk : String → Bool) (st : FsState)
    (fn url : String) (hfail : fetch url = none ∨ copyOk fn = false) :
    (download fetch copyOk st fn url).1 = false
    ∧ fn ∉ (download fetch copyOk st fn url).2.cache
    ∧ (fn ∉ st.dump → fn ∉ (download fetch copyOk st fn url).2.dump)
    ∧ (fetch url ≠ none → fn ∉ (download fetch copyOk st fn url).2.dump) := by
  cases hf : fetch url with
  | none =>
      rw [download_fetch_none fetch copyOk st fn url hf]
      refine ⟨rfl, ?_, ?_, ?_⟩
      · intro h
        exact (mem_fsRemove.mp h).2 rfl
      · intro h hmem
        exact h hmem
      · intro h
        exact absurd rfl h
  | some c =>
      have hc : copyOk fn = false := by
        rcases hfail with h | h
        · exact absurd hf (by simp [h])
        · exact h
      rw [download_copy_fail fetch copyOk st fn url hf hc]
      refine ⟨rfl, ?_, ?_, ?_⟩
      · intro h
        exact (mem_fsRemove.mp h).2 rfl
      · intro _ hmem
        exact (mem_fsRemove.mp hmem).2 rfl
      · intro _ hmem
        exact (mem_fsRemove.mp hmem).2 rfl

/-- Claim C2, witness: the amended theorem applied at a concrete failing
fetch over a state whose dump directory does not contain the filename. -/
theorem claim_C2_witness :
    (download (fun _ => none) (fun _ => true) ⟨["a"], []⟩ "a" "u").1 = false
    ∧ "a" ∉ (download (fun _ => none) (fun _ => true) ⟨["a"], []⟩ "a" "u").2.cache
    ∧ ("a" ∉ FsState.dump ⟨["a"], []⟩ →
        "a" ∉ (download (fun _ => none) (fun _ => true) ⟨["a"], []⟩ "a" "u").2.dump)
    ∧ ((fun _ => (none : Option Nat)) "u" ≠ none →
        "a" ∉ (download (fun _ => none) (fun _ => true) ⟨["a"], []⟩ "a" "u").2.dump) :=
  claim_C2_failed_download_clean (fun _ => none) (fun _ => true) ⟨["a"], []⟩ "a" "u"
    (Or.inl rfl)

/-- Claim C4, counterexample: the claim says every source module surfaces a
listing-page network failure as ModuleExternalError, but the CachyOS worker
catches the failed fetch itself and returns an empty candidate map (success),
whatever its collection stage would do, and the Arch worker's uncaught
requests.get means a timeout or connection error propagates as a raw
requests exception, not as ModuleExternalError. -/
theorem claim_C4_counterexample :
    cachyosDumpWith (fun _ => []) none = Except.ok []
    ∧ archDump ⟨false, false⟩ none = Except.error PyError.requestsError :=
  ⟨rfl, rfl⟩

/-- Claim C4, amended: for the Debian, Manjaro and Raspberry Pi OS modules a
network failure (non-success status, timeout, connection error) while
fetching the listing page surfaces as the distinct external-source error
ModuleExternalError (distinguishable by construction from a programming
error such as IndexError), so a caller can catch it per-module; for the Arch
module only a received non-success status does — its uncaught requests.get
lets a timeout or connection error propagate as a raw requests exception,
never as ModuleExternalError; and the CachyOS module catches the failure
itself and returns an empty candidate map. -/
theorem claim_C4_listing_failure_surfaces :
    (∀ (cfg : DebianConfiguration) (fetch : String → Option (List String)),
        (∃ p ∈ debianPairs cfg, fetch (debianIndexUrl p.1 p.2) = none) →
        ∃ msg, debianDump cfg fetch = .error (.moduleExternal msg))
    ∧ (∀ getLinks, manjaroDumpWith getLinks none
        = .error (.moduleExternal "Manjaro module couldn't fetch the Manjaro index."))
    ∧ (∀ getLinks, rpiosDumpWith getLinks none
        = .error (.moduleExternal "Raspberry Pi OS module couldn't fetch the index."))
    ∧ (∀ (cfg : ArchConfiguration) (status : Nat) (links : List String), status ≠ 200 →
      archDump cfg (some (status, links))
        = .error (.moduleExternal "Unable to get the release-page from Archlinux.org"))
    ∧ (∀ cfg : ArchConfiguration, archDump cfg none = .error .requestsError)
    ∧ (∀ (cfg : ArchConfiguration) (msg : String),
        archDump cfg none ≠ .error (.moduleExternal msg))
    ∧ (∀ collect, cachyosDumpWith collect none = .ok []) := by
  refine ⟨?_, fun _ => rfl, fun _ => rfl, ?_, fun _ => rfl, ?_, fun _ => rfl⟩
  · intro cfg fetch h
    exact debianDumpGo_error (debianPairs cfg) [] h
  · intro cfg status links h
    simp [archDump, h]
  · intro cfg msg h
    exact PyError.noConfusion (Except.error.inj h)

/-- Claim C4, witness: the amended theorem applied at concrete inputs — a
non-200 Arch status, a Debian configuration requesting amd64 cd whose index
fetch fails, the Manjaro/RPiOS fetch-failure case, and the CachyOS
fetch-failure case. -/
theorem claim_C4_witness :
    (∃ msg, debianDump ⟨["amd64"], ["cd"], []⟩ (fun _ => none)
        = .error (.moduleExternal msg))
    ∧ manjaroDumpWith (fun _ => []) none
      = .error (.moduleExternal "Manjaro module couldn't fetch the Manjaro index.")
    ∧ rpiosDumpWith (fun _ => []) none
      = .error (.moduleExternal "Raspberry Pi OS module couldn't fetch the index.")
    ∧ archDump ⟨false, false⟩ (some (500, []))
      = .error (.moduleExternal "Unable to get the release-page from Archlinux.org")
    ∧ archDump ⟨false, false⟩ none = .error .requestsError
    ∧ archDump ⟨false, false⟩ none
      ≠ .error (.moduleExternal "Unable to get the release-page from Archlinux.org")
    ∧ cachyosDumpWith (fun _ => []) none = .ok [] := by
  refine ⟨?_, ?_, ?_, ?_, ?_, ?_, ?_⟩
  · exact claim_C4_listing_failure_surfaces.1 ⟨["amd64"], ["cd"], []⟩ (fun _ => none)
      ⟨("amd64", "cd"), by decide, rfl⟩
  · exact claim_C4_listing_failure_surfaces.2.1 (fun _ => [])
  · exact claim_C4_listing_failure_surfaces.2.2.1 (fun _ => [])
  · exact claim_C4_listing_failure_surfaces.2.2.2.1 ⟨false, false⟩ 500 [] (by decide)
  · exact claim_C4_listing_failure_surfaces.2.2.2.2.1 ⟨false, false⟩
  · exact claim_C4_listing_failure_surfaces.2.2.2.2.2.1 ⟨false, false⟩
      "Unable to get the release-page from Archlinux.org"
  · exact claim_C4_listing_failure_surfaces.2.2.2.2.2.2 (fun _ => [])

/-- Claim C7, counterexample: the claim says an interrupt causes prompt
termination with exit code 0 even mid-sleep or mid-iteration; but in the
embedded loop an interrupt during the finally-clause sleep ends the loop as
an unhandled KeyboardInterrupt (not the exit-0 path), and an interrupt during
the dump step reaches exit 0 only after a further full interval sleep (the
finally clause runs before SystemExit propagates), so termination is neither
exit-0 mid-sleep nor prompt mid-iteration. -/
theorem claim_C7_counterexample :
    (runLoop [⟨DumpRes.ok, SleepRes.interrupted⟩]).2 = LoopEnd.uncaughtInterrupt
    ∧ (runLoop [⟨DumpRes.ok, SleepRes.interrupted⟩]).2 ≠ LoopEnd.exitZero
    ∧ runLoop [⟨DumpRes.raisesInterrupt, SleepRes.completes⟩]
      = ([LoopAct.dumpStep, LoopAct.sleepInterval, LoopAct.exitCode 0], LoopEnd.exitZero) := by
  refine ⟨by decide, by decide, by decide⟩

/-- Claim C7, amended: the loop leaves RUNNING only on a KeyboardInterrupt —
with no interrupt it keeps running whatever the iterations do, any other
exception is caught, logged as a warning and followed by the fixed interval
sleep after which the loop runs again, and reaching exit code 0 requires an
interrupt raised during the dump step; that exit happens only after one
further interval sleep, and an interrupt during the sleep itself ends the
loop as an unhandled exception rather than through the exit-0 path. -/
theorem claim_C7_loop_termination :
    (∀ cycles : List LoopCycle,
      (∀ c ∈ cycles, c.dump ≠ DumpRes.raisesInterrupt ∧ c.sleep = SleepRes.completes) →
      (runLoop cycles).2 = LoopEnd.running)
    ∧ (∀ cycles : List LoopCycle,
        (runLoop cycles).2 = LoopEnd.exitZero →
        ∃ c ∈ cycles, c.dump = DumpRes.raisesInterrupt)
    ∧ (∀ rest : List LoopCycle,
        runLoop (⟨DumpRes.raisesError, SleepRes.completes⟩ :: rest)
          = (LoopAct.dumpStep :: LoopAct.warnLog :: LoopAct.sleepInterval :: (runLoop rest).1,
             (runLoop rest).2)) :=
  ⟨runLoop_no_interrupt, runLoop_exit_only_on_interrupt, runLoop_error_continues⟩

/-- Claim C7, witness: the amended theorem applied at concrete cycle lists —
an error-then-ok run with no interrupt keeps running, a run that ends with
exit 0 contains a dump-step interrupt, and an error iteration logs a warning
and sleeps before the loop continues. -/
theorem claim_C7_witness :
    (runLoop [⟨DumpRes.raisesError, SleepRes.completes⟩, ⟨DumpRes.ok, SleepRes.completes⟩]).2
      = LoopEnd.running
    ∧ (∃ c ∈ [⟨DumpRes.raisesInterrupt, SleepRes.completes⟩].concat ⟨DumpRes.ok, SleepRes.completes⟩,
        LoopCycle.dump c = DumpRes.raisesInterrupt)
    ∧ runLoop (⟨DumpRes.raisesError, SleepRes.completes⟩ :: [⟨DumpRes.ok, SleepRes.completes⟩])
      = (LoopAct.dumpStep :: LoopAct.warnLog :: LoopAct.sleepInterval
          :: (runLoop [⟨DumpRes.ok, SleepRes.completes⟩]).1,
         (runLoop [⟨DumpRes.ok, SleepRes.completes⟩]).2) := by
  refine ⟨?_, ?_, ?_⟩
  · exact claim_C7_loop_termination.1 _ (by decide)
  · exact claim_C7_loop_termination.2.1 _ (by decide)
  · exact claim_C7_loop_termination.2.2 _

/-- Claim C1: (a) a candidate filename already present in the run-initial
cache snapshot is never downloaded (and never fails) in that run — every
module counts it as duplicate instead; (b) when a run's downloads all
succeed, re-running the reconciler over the same module candidates (the
unchanged external source) performs zero downloads: every module's second-run
report counts every candidate as duplicate with zero downloaded and zero
failed.  The per-module counting engine is modelled from the spec (section
4.3); `download` and `get_files_in_cache` are embedded from
src/distrodumper/file_helper.py. -/
theorem claim_C1_snapshot_and_idempotence :
    (∀ (fetch : String → Option Nat) (copyOk : String → Bool)
       (modules : List (List (String × String))) (st : FsState) (fn : String),
      fn ∈ get_files_in_cache st →
      (∀ evs ∈ (runReconciler fetch copyOk modules st).1,
        RunEvent.downloaded fn ∉ evs ∧ RunEvent.failed fn ∉ evs)
      ∧ (∀ p ∈ modules.zip (runReconciler fetch copyOk modules st).1,
          fn ∈ p.1.map Prod.fst →
          RunEvent.duplicate fn ∈ p.2 ∧ 0 < (report p.2).duplicate))
    ∧ (∀ (fetch : String → Option Nat) (copyOk : String → Bool)
         (modules : List (List (String × String))) (st : FsState),
        (∀ m ∈ modules, ∀ c ∈ m, fetch c.2 ≠ none ∧ copyOk c.1 = true) →
        ∀ p ∈ modules.zip
            (runReconciler fetch copyOk modules (runReconciler fetch copyOk modules st).2).1,
          (report p.2).downloaded = 0 ∧ (report p.2).failed = 0
          ∧ (report p.2).duplicate = p.1.length) := by
  constructor
  · intro fetch copyOk modules st fn hfn
    refine ⟨runModules_snapshot_no_download hfn modules st, ?_⟩
    intro p hp hmem
    have hdup := runModules_snapshot_duplicate hfn modules st p hp hmem
    exact ⟨hdup, report_duplicate_pos hdup⟩
  · intro fetch copyOk modules st hs
    have h1 := runModules_success_cache fetch copyOk (get_files_in_cache st) modules st hs
      (fun x hx => hx)
    have hall : ∀ m ∈ modules, ∀ c ∈ m,
        c.1 ∈ get_files_in_cache (runReconciler fetch copyOk modules st).2 := h1.2
    have h2 := runModules_all_cached fetch copyOk
      (get_files_in_cache (runReconciler fetch copyOk modules st).2)
      modules (runReconciler fetch copyOk modules st).2 hall
    intro p hp
    have hfst : (runReconciler fetch copyOk modules (runReconciler fetch copyOk modules st).2).1
        = modules.map (fun m => m.map (fun c => RunEvent.duplicate c.1)) := by
      have : runReconciler fetch copyOk modules (runReconciler fetch copyOk modules st).2
          = (modules.map (fun m => m.map (fun c => RunEvent.duplicate c.1)),
             (runReconciler fetch copyOk modules st).2) := h2
      rw [this]
    rw [hfst] at hp
    have hp2 := zip_map_self (fun m => m.map (fun c => RunEvent.duplicate c.1)) modules p hp
    rw [hp2, report_duplicate_map]
    exact ⟨rfl, rfl, rfl⟩

/-- Claim C1, witness: the theorem applied at the spec's cache-diff scenario
(cache holds fileA.torrent, one module offering fileA.torrent and
fileB.torrent, all downloads succeeding). -/
theorem claim_C1_witness :
    ((∀ evs ∈ (runReconciler witFetch witCopy witModules witState).1,
        RunEvent.downloaded "fileA.torrent" ∉ evs ∧ RunEvent.failed "fileA.torrent" ∉ evs)
      ∧ (∀ p ∈ witModules.zip (runReconciler witFetch witCopy witModules witState).1,
          "fileA.torrent" ∈ p.1.map Prod.fst →
          RunEvent.duplicate "fileA.torrent" ∈ p.2 ∧ 0 < (report p.2).duplicate))
    ∧ (∀ p ∈ witModules.zip
          (runReconciler witFetch witCopy witModules
            (runReconciler witFetch witCopy witModules witState).2).1,
        (report p.2).downloaded = 0 ∧ (report p.2).failed = 0
        ∧ (report p.2).duplicate = p.1.length) :=
  ⟨claim_C1_snapshot_and_idempotence.1 witFetch witCopy witModules witState
      "fileA.torrent" (by decide),
   claim_C1_snapshot_and_idempotence.2 witFetch witCopy witModules witState (by decide)⟩

/-- Claim C3: on a fetch/write failure the download operation deletes the
partial cache file and reports failure; and the reconciler never aborts — it
records exactly one event per candidate of every module, the whole module
list is processed, and a non-cached candidate whose fetch fails gets a
`failed` event while processing continues.  The per-module engine is modelled
from the spec (section 4.3); `download` is embedded from
src/distrodumper/file_helper.py, whose fetch-failure branch (lines 93-100)
removes the cache file if it exists and returns False. -/
theorem claim_C3_fail_clean_continue :
    (∀ (fetch : String → Option Nat) (copyOk : String → Bool) (st : FsState) (fn url : String),
      fetch url = none →
      download fetch copyOk st fn url = (false, ⟨fsRemove st.cache fn, st.dump⟩))
    ∧ (∀ (fetch : String → Option Nat) (copyOk : String → Bool) (cached : List String)
         (m : List (String × String)) (st : FsState),
        (processCandidates fetch copyOk cached m st).1.length = m.length)
    ∧ (∀ (fetch : String → Option Nat) (copyOk : String → Bool)
         (modules : List (List (String × String))) (st : FsState),
        (runReconciler fetch copyOk modules st).1.length = modules.length)
    ∧ (∀ (fetch : String → Option Nat) (copyOk : String → Bool) (cached : List String)
         (m : List (String × String)) (st : FsState) (fn url : String),
        (fn, url) ∈ m → fn ∉ cached → fetch url = none →
        RunEvent.failed fn ∈ (processCandidates fetch copyOk cached m st).1) :=
  ⟨fun f co s a u h => download_fetch_none f co s a u h,
   fun _ _ _ m st => processCandidates_length m st,
   fun _ _ modules st => runModules_length modules st,
   fun _ _ _ m st _ _ hm hfn hf => processCandidates_failed_recorded m st hm hfn hf⟩

/-- Claim C3, witness: the theorem applied at a failing fetch for a concrete
candidate, and at the concrete two-candidate module list. -/
theorem claim_C3_witness :
    download (fun _ => none) witCopy ⟨["b"], []⟩ "a" "u"
      = (false, ⟨fsRemove ["b"] "a", []⟩)
    ∧ (processCandidates (fun _ => none) witCopy [] [("a", "u")] ⟨["b"], []⟩).1.length
      = [("a", "u")].length
    ∧ (runReconciler witFetch witCopy witModules witState).1.length = witModules.length
    ∧ RunEvent.failed "a"
      ∈ (processCandidates (fun _ => none) witCopy [] [("a", "u")] ⟨["b"], []⟩).1 :=
  ⟨claim_C3_fail_clean_continue.1 (fun _ => none) witCopy ⟨["b"], []⟩ "a" "u" rfl,
   claim_C3_fail_clean_continue.2.1 (fun _ => none) witCopy [] [("a", "u")] ⟨["b"], []⟩,
   claim_C3_fail_clean_continue.2.2.1 witFetch witCopy witModules witState,
   claim_C3_fail_clean_continue.2.2.2 (fun _ => none) witCopy [] [("a", "u")] ⟨["b"], []⟩
     "a" "u" (by decide) (by decide) rfl⟩

/-- Claim C9, counterexample: the claim says validation never throws on bad
input, but config_helper's DUMPER_INTERVAL validator guards `int(val)` only
with `val.isdigit()`, which also accepts non-decimal digit characters such
as the superscript two; on DUMPER_INTERVAL = "²" the `int` call raises
ValueError, so verify_environment throws instead of reporting the field. -/
theorem claim_C9_counterexample :
    verify_environment [("DUMPER_MODULES", "arch"), ("DUMPER_INTERVAL", "²")] (fun _ => true)
      = .error .valueError := by
  decide

/-- Claim C9, amended: provided no validator call itself raises — every
present value of a required or optional variable yields a verdict, which
excludes exactly the DUMPER_INTERVAL values that str.isdigit accepts but
int() rejects (non-decimal digit characters) — configuration validation
evaluates every required validator and every present optional validator,
reports the full list of failing fields rather than stopping at the first,
and returns True exactly when every required variable is present with a
valid value and every present optional variable has a valid value; the Arch
module's verify_config satisfies this unconditionally since its validators
cannot raise. -/
theorem claim_C9_validation_collects_failures :
    (∀ (env : EnvMap) (isdir : String → Bool),
      (∀ nv ∈ requiredValidators, validatorThrows env nv = false) →
      (∀ nv ∈ optionalValidators isdir, validatorThrows env nv = false) →
      verify_environment env isdir
        = .ok (requiredValidators.all (fun nv => !(requiredFails env nv))
                && (optionalValidators isdir).all (fun nv => !(optionalFails env nv)),
               (requiredValidators.filter (requiredFails env)).map Prod.fst
                ++ ((optionalValidators isdir).filter (optionalFails env)).map Prod.fst)
      ∧ ((requiredValidators.all (fun nv => !(requiredFails env nv))
            && (optionalValidators isdir).all (fun nv => !(optionalFails env nv))) = true
          ↔ (∀ nv ∈ requiredValidators, requiredFails env nv = false)
            ∧ (∀ nv ∈ optionalValidators isdir, optionalFails env nv = false)))
    ∧ (∀ env : EnvMap,
        arch_verify_config env
          = .ok (archOptionalValidators.all (fun nv => !(optionalFails env nv)),
                 (archOptionalValidators.filter (optionalFails env)).map Prod.fst)
        ∧ ((archOptionalValidators.all (fun nv => !(optionalFails env nv))) = true
            ↔ ∀ nv ∈ archOptionalValidators, optionalFails env nv = false)) := by
  constructor
  · intro env isdir hreqnt hoptnt
    have hreq := checkRequired_spec env requiredValidators (true, []) hreqnt
    have hv0 : verify_environment env isdir
        = match checkRequired requiredValidators env (true, []) with
          | .error e => .error e
          | .ok r => checkOptional (optionalValidators isdir) env r := rfl
    rw [hv0, hreq]
    have hopt := checkOptional_spec env (optionalValidators isdir)
      ((true, ([] : List String)).1 && requiredValidators.all (fun nv => !(requiredFails env nv)),
       (true, ([] : List String)).2
         ++ (requiredValidators.filter (requiredFails env)).map Prod.fst) hoptnt
    refine ⟨?_, ?_⟩
    · simp at hopt
      simp [hopt]
    · simp [List.all_eq_true]
  · intro env
    have hntarch : ∀ nv ∈ archOptionalValidators, validatorThrows env nv = false := by
      intro nv hnv
      rcases List.mem_cons.mp hnv with hc | hc
      · rw [hc]
        exact vOk_never_throws env "ARCH_GET_ALL" _
      · rcases List.mem_cons.mp hc with hc2 | hc2
        · rw [hc2]
          exact vOk_never_throws env "ARCH_GET_AVAILABLE" _
        · simp at hc2
    have harch := checkOptional_spec env archOptionalValidators (true, []) hntarch
    have hva0 : arch_verify_config env
        = checkOptional archOptionalValidators env (true, []) := rfl
    refine ⟨?_, ?_⟩
    · rw [hva0, harch]
      simp
    · simp [List.all_eq_true]

/-- Claim C9, witness: the amended theorem applied at a concrete environment
whose present values make no validator raise — the module list is valid
while DUMPER_DEBUG and DUMPER_INTERVAL hold invalid values — and at the same
environment for the Arch checks. -/
theorem claim_C9_witness :
    (verify_environment witEnv witIsdir
        = .ok (requiredValidators.all (fun nv => !(requiredFails witEnv nv))
                && (optionalValidators witIsdir).all (fun nv => !(optionalFails witEnv nv)),
               (requiredValidators.filter (requiredFails witEnv)).map Prod.fst
                ++ ((optionalValidators witIsdir).filter (optionalFails witEnv)).map Prod.fst)
      ∧ ((requiredValidators.all (fun nv => !(requiredFails witEnv nv))
            && (optionalValidators witIsdir).all (fun nv => !(optionalFails witEnv nv))) = true
          ↔ (∀ nv ∈ requiredValidators, requiredFails witEnv nv = false)
            ∧ (∀ nv ∈ optionalValidators witIsdir, optionalFails witEnv nv = false)))
    ∧ (arch_verify_config witEnv
        = .ok (archOptionalValidators.all (fun nv => !(optionalFails witEnv nv)),
               (archOptionalValidators.filter (optionalFails witEnv)).map Prod.fst)
      ∧ ((archOptionalValidators.all (fun nv => !(optionalFails witEnv nv))) = true
          ↔ ∀ nv ∈ archOptionalValidators, optionalFails witEnv nv = false)) :=
  ⟨claim_C9_validation_collects_failures.1 witEnv witIsdir (by decide) (by decide),
   claim_C9_validation_collects_failures.2 witEnv⟩
